import Mathlib

/-!
Shallow embedding of the `sync_file` crate (positional byte I/O).

Bytes are modelled as `Nat`, byte buffers as `List Nat`, `u64`/`usize` offsets
as `Nat` (with an explicit `2 ^ 64` bound where the code does overflow-checked
arithmetic).  Fallible Rust operations returning `io::Result<T>` are modelled
as `Except IOError T`; mutation of a `&mut [u8]` destination buffer is made
explicit by returning the updated buffer.
-/

namespace SyncFileSpec

/-- The `io::ErrorKind`s this library produces or inspects, plus a catch-all
for arbitrary other kinds coming from an underlying implementation. -/
inductive ErrorKind where
  | interrupted
  | unexpectedEof
  | writeZero
  | invalidInput
  | unsupported
  | other (code : Nat)
deriving DecidableEq, Repr

/-- An `io::Error`: a kind plus a message. -/
structure IOError where
  kind : ErrorKind
  msg : String
deriving DecidableEq, Repr

/-- Error `fill_buffer_error` (src/lib.rs:592-595). -/
def fill_buffer_error : IOError :=
  ⟨.unexpectedEof, "failed to fill whole buffer"⟩

/-- Error `write_buffer_error` (src/lib.rs:597-600). -/
def write_buffer_error : IOError :=
  ⟨.writeZero, "failed to write whole buffer"⟩

/-- Error `invalid_seek` (src/adapter.rs:187-193). -/
def invalid_seek : IOError :=
  ⟨.invalidInput, "invalid seek to a negative or overflowing position"⟩

/-- Error `unsupported` (src/adapter.rs:195-201); renamed to avoid clashing with the
error-kind constructor. -/
def unsupported_seek : IOError :=
  ⟨.unsupported, "unsupported seek to end of stream"⟩

/-- Embeds `<[u8] as ReadAt>::read_at` (src/lib.rs:137-148).  `B` is the source
slice, `buf` the destination buffer; the result is the count together with the
destination buffer after `buf[..len].copy_from_slice(&this[..len])`.  The two
failure paths of the inner closure — `offset.try_into()` (u64 to usize, which
can only fail when `offset` exceeds `usize::MAX ≥ B.len()`) and
`self.get(offset..)` (fails when `offset > B.len()`) — are both the single
case `offset > B.length`, landing in `unwrap_or(0)` with `buf` untouched. -/
def sliceReadAt (B : List Nat) (buf : List Nat) (offset : Nat) :
    Except IOError (Nat × List Nat) :=
  if offset ≤ B.length then
    let this := B.drop offset
    let len := min this.length buf.length
    .ok (len, this.take len ++ buf.drop len)
  else
    .ok (0, buf)

/-- Embeds `<[u8] as ReadAt>::read_exact_at` (src/lib.rs:151-159).  The inner closure
succeeds iff `self.get(offset..)` succeeds (`offset ≤ B.len()`) and
`this.len() >= buf.len()`; on success `buf` is fully overwritten by
`copy_from_slice`, otherwise `ok_or_else(fill_buffer_error)` yields the
unexpected-EOF error. -/
def sliceReadExactAt (B : List Nat) (buf : List Nat) (offset : Nat) :
    Except IOError (List Nat) :=
  if offset ≤ B.length ∧ buf.length ≤ B.length - offset then
    .ok ((B.drop offset).take buf.length)
  else
    .error fill_buffer_error

/-- One response of an arbitrary `read_at` / `write_at` implementation when
called by a default-method loop: either a transferred byte count, or an
error. -/
abbrev IOResp := Except IOError Nat

/-- Default `ReadAt::read_exact_at` (src/lib.rs:102-119).  The successive
calls `self.read_at(buf, offset)` are abstracted as the response list
`resps`; the destination buffer is abstracted by its remaining length `rem`
(the loop only tests `buf.is_empty()` and reslices `buf = &mut buf[n..]`).
`Ok(0)` breaks the loop, which then reports `fill_buffer_error` since the
buffer is still non-empty; `Ok(n)` advances buffer and offset by `n`;
`Interrupted` errors are skipped; other errors return immediately; an empty
(or emptied) buffer yields `Ok(())`.  `none` marks behaviour outside the
model: the response list is exhausted with the buffer unfilled, or a response
claims more bytes than remain (`buf[n..]` would panic in the source). -/
def readExactAtDefault : List IOResp → Nat → Nat → Option (Except IOError Unit)
  | _, 0, _ => some (.ok ())
  | [], _ + 1, _ => none
  | .ok 0 :: _, _ + 1, _ => some (.error fill_buffer_error)
  | .ok (n + 1) :: rest, rem + 1, offset =>
      if n + 1 ≤ rem + 1 then readExactAtDefault rest (rem - n) (offset + (n + 1))
      else none
  | .error e :: rest, rem + 1, offset =>
      if e.kind = .interrupted then readExactAtDefault rest (rem + 1) offset
      else some (.error e)

/-- Default `WriteAt::write_all_at` (src/lib.rs:353-368), abstracted exactly
like `readExactAtDefault`.  The one difference to the read loop: `Ok(0)` with
a non-empty buffer returns `write_buffer_error` immediately instead of
breaking, and a completed loop returns `Ok(())` with no final emptiness
check. -/
def writeAllAtDefault : List IOResp → Nat → Nat → Option (Except IOError Unit)
  | _, 0, _ => some (.ok ())
  | [], _ + 1, _ => none
  | .ok 0 :: _, _ + 1, _ => some (.error write_buffer_error)
  | .ok (n + 1) :: rest, rem + 1, offset =>
      if n + 1 ≤ rem + 1 then writeAllAtDefault rest (rem - n) (offset + (n + 1))
      else none
  | .error e :: rest, rem + 1, offset =>
      if e.kind = .interrupted then writeAllAtDefault rest (rem + 1) offset
      else some (.error e)

/-- The buffer selected by the default `read_vectored_at`
(src/lib.rs:127-130): `bufs.iter_mut().find(|b| !b.is_empty())`, defaulting
to the empty slice when every buffer is empty. -/
def firstNonEmpty (bufs : List (List Nat)) : List Nat :=
  match bufs.find? (fun b => !b.isEmpty) with
  | some b => b
  | none => []

/-- Default `ReadAt::read_vectored_at` (src/lib.rs:126-132) instantiated at
the slice implementation of `read_at` (which `impl ReadAt for [u8]` does not
override): a single `read_at` into the first non-empty buffer. -/
def sliceReadVectoredAt (B : List Nat) (bufs : List (List Nat)) (offset : Nat) :
    Except IOError (Nat × List Nat) :=
  sliceReadAt B (firstNonEmpty bufs) offset

/-- Embeds `std::io::SeekFrom`; the `End` constructor is named `fromEnd` to avoid
the Lean keyword. -/
inductive SeekFrom where
  | start (n : Nat)
  | current (d : Int)
  | fromEnd (d : Int)
deriving DecidableEq, Repr

/-- Embeds `Adapter<T>` (src/adapter.rs:8-11): only the stored cursor is concrete
here; the inner positional value is abstracted as an oracle argument of each
operation that needs it. -/
structure Adapter where
  offset : Nat
deriving DecidableEq, Repr

/-- Embeds `Adapter::new` (src/adapter.rs:16-18): the cursor starts at 0. -/
def Adapter.new : Adapter := ⟨0⟩

/-- Embeds `io::Seek::seek` for `Adapter<T>` (src/adapter.rs:163-173), returning the
adapter after the call and the result.  `Start(p)` stores `p`
unconditionally; `Current(p)` uses `u64::checked_add_signed`, which succeeds
iff the mathematical sum lies in `[0, 2^64)`, and the `?` on failure returns
before the assignment, leaving the offset unchanged; `End(_)` returns the
unsupported-seek error before the assignment. -/
def Adapter.seek (a : Adapter) (pos : SeekFrom) : Adapter × Except IOError Nat :=
  match pos with
  | .start p => (⟨p⟩, .ok p)
  | .current p =>
      let r : Int := (a.offset : Int) + p
      if 0 ≤ r ∧ r < 2 ^ 64 then (⟨r.toNat⟩, .ok r.toNat)
      else (a, .error invalid_seek)
  | .fromEnd _ => (a, .error unsupported_seek)

/-- Embeds `io::Seek::rewind` for `Adapter<T>` (src/adapter.rs:176-179): set the
offset to 0, always `Ok(())`. -/
def Adapter.rewind (_a : Adapter) : Adapter × Except IOError Unit :=
  (⟨0⟩, .ok ())

/-- Embeds `io::Seek::stream_position` for `Adapter<T>` (src/adapter.rs:182-184):
report the stored offset, always `Ok`. -/
def Adapter.stream_position (a : Adapter) : Adapter × Except IOError Nat :=
  (a, .ok a.offset)

/-- Embeds `io::Read::read` for `Adapter<T>` (src/adapter.rs:101-105): the inner
`self.inner.read_at(buf, self.offset)` is abstracted as an oracle
`ra : bufLen → offset → IOResp` giving the transferred count.  On success the
offset advances by the count; the `?` on an error returns before the offset
update. -/
def Adapter.read (a : Adapter) (ra : Nat → Nat → IOResp) (bufLen : Nat) :
    Adapter × Except IOError Nat :=
  match ra bufLen a.offset with
  | .ok n => (⟨a.offset + n⟩, .ok n)
  | .error e => (a, .error e)

/-- Embeds `io::Read::read_exact` for `Adapter<T>` (src/adapter.rs:108-114): the
inner `read_exact_at` is the oracle `rea`; the offset advances by the whole
buffer length exactly when the call returns `Ok`. -/
def Adapter.read_exact (a : Adapter) (rea : Nat → Nat → Except IOError Unit)
    (bufLen : Nat) : Adapter × Except IOError Unit :=
  match rea bufLen a.offset with
  | .ok _ => (⟨a.offset + bufLen⟩, .ok ())
  | .error e => (a, .error e)

/-- Embeds `io::Write::write` for `Adapter<T>` (src/adapter.rs:129-133), mirror of
`Adapter.read` with the inner `write_at` as the oracle `wa`. -/
def Adapter.write (a : Adapter) (wa : Nat → Nat → IOResp) (bufLen : Nat) :
    Adapter × Except IOError Nat :=
  match wa bufLen a.offset with
  | .ok n => (⟨a.offset + n⟩, .ok n)
  | .error e => (a, .error e)

/-- Embeds `io::Write::write_all` for `Adapter<T>` (src/adapter.rs:136-142), mirror
of `Adapter.read_exact` with the inner `write_all_at` as the oracle `waa`. -/
def Adapter.write_all (a : Adapter) (waa : Nat → Nat → Except IOError Unit)
    (bufLen : Nat) : Adapter × Except IOError Unit :=
  match waa bufLen a.offset with
  | .ok _ => (⟨a.offset + bufLen⟩, .ok ())
  | .error e => (a, .error e)

/-- Embeds `derive(Clone)` on `SyncFile` (src/file.rs:489-490): the `u64` offset
field of the inner `Adapter` is `Copy` and lies outside the `Arc`, so the
clone starts with its own copy of the current offset. -/
def cloneSyncFile (a : Adapter) : Adapter := ⟨a.offset⟩

/-- Modelled from the spec: the platform positional read primitive used by
`RandomAccessFile::read_at` (the native `pread`-style syscall is outside
src/).  Per §4.1/§8 of the spec it reads like the in-memory slice `read_at`:
the count is the available bytes at `offset` clamped to the buffer length,
with an out-of-range offset giving 0. -/
def fileReadCount (data : List Nat) (bufLen offset : Nat) : Nat :=
  min bufLen (data.length - offset)

/-- Modelled from the spec: the platform positional write primitive used by
`RandomAccessFile::write_at` (the native `pwrite`-style syscall is outside
src/).  It overwrites `buf.length` bytes of the shared content at `offset`,
zero-extending the file when `offset` is past the end, and commits the whole
buffer. -/
def fileWriteAt (data : List Nat) (buf : List Nat) (offset : Nat) : List Nat :=
  data.take offset ++ List.replicate (offset - data.length) 0 ++ buf ++
    data.drop (offset + buf.length)

/-- One sequential operation on a `SyncFile` clone. -/
inductive SFOp where
  | read (bufLen : Nat)
  | write (buf : List Nat)
  | seek (pos : SeekFrom)
  | rewind
deriving DecidableEq, Repr

/-- Which of two clones of a `SyncFile` an operation is applied to. -/
inductive CloneId where
  | fst
  | snd
deriving DecidableEq, Repr

/-- Two clones of one `SyncFile` (src/file.rs:490,
`SyncFile(Adapter<Arc<RandomAccessFile>>)`): the file bytes are shared
through the `Arc`; each clone privately owns the `offset` field of its
`Adapter`. -/
structure SFWorld where
  content : List Nat
  fst : Adapter
  snd : Adapter
deriving DecidableEq, Repr

/-- The cursor of the chosen clone. -/
def SFWorld.cursor (w : SFWorld) : CloneId → Adapter
  | .fst => w.fst
  | .snd => w.snd

/-- Replace the cursor of the chosen clone. -/
def SFWorld.setCursor (w : SFWorld) : CloneId → Adapter → SFWorld
  | .fst, a => { w with fst := a }
  | .snd, a => { w with snd := a }

/-- Apply one sequential `SyncFile` operation to the chosen clone
(src/file.rs:568-631: every sequential method routes through that clone's own
`Adapter` field, touching only its cursor and, for writes, the shared
content). -/
def SFWorld.step (w : SFWorld) (c : CloneId) : SFOp → SFWorld
  | .read bufLen =>
      w.setCursor c
        ((w.cursor c).read (fun len off => .ok (fileReadCount w.content len off))
          bufLen).1
  | .write buf =>
      { w.setCursor c ((w.cursor c).write (fun len _ => .ok len) buf.length).1 with
          content := fileWriteAt w.content buf (w.cursor c).offset }
  | .seek pos => w.setCursor c ((w.cursor c).seek pos).1
  | .rewind => w.setCursor c ((w.cursor c).rewind).1

/-- Run a whole sequence of sequential operations on one clone. -/
def SFWorld.run (w : SFWorld) (c : CloneId) : List SFOp → SFWorld
  | [] => w
  | op :: ops => (w.step c op).run c ops

end SyncFileSpec

namespace SyncFileSpec

/-- C1: the slice `read_at` with `o ≤ len(B)` returns
`min (len buf) (len B - o)` and fills that prefix of `buf` from `B[o..]`;
with `o > len(B)` it returns `Ok(0)` and leaves `buf` unchanged. -/
theorem sliceReadAt_spec (B buf : List Nat) (o : Nat) :
    (o ≤ B.length →
      sliceReadAt B buf o =
        .ok (min buf.length (B.length - o),
             (B.drop o).take (min buf.length (B.length - o)) ++
               buf.drop (min buf.length (B.length - o)))) ∧
    (B.length < o → sliceReadAt B buf o = .ok (0, buf)) := by
  constructor
  · intro h
    simp [sliceReadAt, h, List.length_drop, Nat.min_comm]
  · intro h
    simp [sliceReadAt, Nat.not_le.mpr h]

/-- Witness for `sliceReadAt_spec` at `B = [10, 20, 30]`, `buf = [0, 0]`,
in-range offset `1` and out-of-range offset `4`. -/
theorem sliceReadAt_spec_witness :
    sliceReadAt [10, 20, 30] [0, 0] 1 = .ok (2, [20, 30]) ∧
    sliceReadAt [10, 20, 30] [0, 0] 4 = .ok (0, [0, 0]) := by
  refine ⟨?_, ?_⟩
  · have h := (sliceReadAt_spec [10, 20, 30] [0, 0] 1).1 (by decide)
    simpa using h
  · exact (sliceReadAt_spec [10, 20, 30] [0, 0] 4).2 (by decide)

/-- C2: the slice `read_exact_at` with `o ≤ len(B)` succeeds and fills `buf`
with exactly `B[o..o+len(buf)]` when `len(buf) ≤ len(B) - o`, and fails with
an `UnexpectedEof` error otherwise. -/
theorem sliceReadExactAt_spec (B buf : List Nat) (o : Nat) (ho : o ≤ B.length) :
    (buf.length ≤ B.length - o →
      sliceReadExactAt B buf o = .ok ((B.drop o).take buf.length)) ∧
    (B.length - o < buf.length →
      sliceReadExactAt B buf o = .error fill_buffer_error ∧
        fill_buffer_error.kind = .unexpectedEof) := by
  constructor
  · intro h
    simp [sliceReadExactAt, ho, h]
  · intro h
    refine ⟨?_, rfl⟩
    simp [sliceReadExactAt, Nat.not_le.mpr h]

/-- Witness for `sliceReadExactAt_spec` at `B = [10, 20, 30]`, offset `1`:
a 2-byte buffer is filled exactly, a 3-byte buffer hits unexpected EOF. -/
theorem sliceReadExactAt_spec_witness :
    sliceReadExactAt [10, 20, 30] [0, 0] 1 = .ok [20, 30] ∧
    sliceReadExactAt [10, 20, 30] [0, 0, 0] 1 = .error fill_buffer_error := by
  refine ⟨?_, ?_⟩
  · have h := (sliceReadExactAt_spec [10, 20, 30] [0, 0] 1 (by decide)).1 (by decide)
    simpa using h
  · exact ((sliceReadExactAt_spec [10, 20, 30] [0, 0, 0] 1 (by decide)).2 (by decide)).1

/-- C10: on an out-of-range offset with an empty buffer the specialized slice
`read_exact_at` fails with `UnexpectedEof`, while the trait's default
implementation returns `Ok(())` for an empty buffer regardless of the offset
and of the underlying `read_at` (the `while !buf.is_empty()` loop never
runs). -/
theorem sliceReadExactAt_empty_disagrees (B : List Nat) (o : Nat)
    (resps : List IOResp) (h : B.length < o) :
    sliceReadExactAt B [] o = .error fill_buffer_error ∧
    readExactAtDefault resps 0 o = some (.ok ()) := by
  constructor
  · simp [sliceReadExactAt, Nat.not_le.mpr h]
  · cases resps with
    | nil => rfl
    | cons r rest =>
        cases r with
        | ok n => cases n <;> rfl
        | error e => rfl

/-- Witness for `sliceReadExactAt_empty_disagrees` at `B = []`, `o = 1`,
no responses needed by the default. -/
theorem sliceReadExactAt_empty_disagrees_witness :
    sliceReadExactAt [] [] 1 = .error fill_buffer_error ∧
    readExactAtDefault [] 0 1 = some (.ok ()) :=
  sliceReadExactAt_empty_disagrees [] 1 [] (by decide)

/-- C3: `Adapter` seek.  `Start(n)` stores `n` unconditionally and returns
it; `Current(d)` succeeds with the checked sum when it lies in `[0, 2^64)`
and otherwise fails with the `InvalidInput` invalid-seek error leaving the
offset unchanged; `End(_)` always fails with the `Unsupported` error leaving
the offset unchanged. -/
theorem adapterSeek_spec (a : Adapter) (n : Nat) (d : Int) :
    (a.seek (.start n) = (⟨n⟩, .ok n)) ∧
    (∀ r : Int, r = (a.offset : Int) + d →
      (0 ≤ r ∧ r < 2 ^ 64 →
        a.seek (.current d) = (⟨r.toNat⟩, .ok r.toNat)) ∧
      (r < 0 ∨ 2 ^ 64 ≤ r →
        a.seek (.current d) = (a, .error invalid_seek) ∧
          invalid_seek.kind = .invalidInput)) ∧
    (a.seek (.fromEnd d) = (a, .error unsupported_seek) ∧
      unsupported_seek.kind = .unsupported) := by
  refine ⟨rfl, ?_, rfl, rfl⟩
  intro r hr
  subst hr
  constructor
  · intro h
    show (if 0 ≤ (a.offset : Int) + d ∧ (a.offset : Int) + d < 2 ^ 64 then
        ((⟨((a.offset : Int) + d).toNat⟩ : Adapter),
          (Except.ok ((a.offset : Int) + d).toNat : Except IOError Nat))
      else (a, .error invalid_seek)) = _
    rw [if_pos h]
  · intro h
    have h' : ¬(0 ≤ (a.offset : Int) + d ∧ (a.offset : Int) + d < 2 ^ 64) := by
      rcases h with h | h
      · intro hc; omega
      · intro hc; omega
    refine ⟨?_, rfl⟩
    show (if 0 ≤ (a.offset : Int) + d ∧ (a.offset : Int) + d < 2 ^ 64 then
        ((⟨((a.offset : Int) + d).toNat⟩ : Adapter),
          (Except.ok ((a.offset : Int) + d).toNat : Except IOError Nat))
      else (a, .error invalid_seek)) = _
    rw [if_neg h']

/-- Witness for `adapterSeek_spec`: the spec's example run — at offset `9`,
`seek(Current(-2))` yields `7`; at offset `7`, `seek(Current(-10))` fails
with the invalid-seek error and the offset stays `7`. -/
theorem adapterSeek_spec_witness :
    Adapter.seek ⟨9⟩ (.current (-2)) = (⟨7⟩, .ok 7) ∧
    Adapter.seek ⟨7⟩ (.current (-10)) = (⟨7⟩, .error invalid_seek) := by
  constructor
  · have h := ((adapterSeek_spec ⟨9⟩ 0 (-2)).2.1 7 (by decide)).1 (by decide)
    simpa using h
  · exact (((adapterSeek_spec ⟨7⟩ 0 (-10)).2.1 (-3) (by decide)).2
      (Or.inl (by decide))).1

/-- C8: `Adapter.rewind` always succeeds with offset `0` (hence is
idempotent), and `stream_position`, which never fails, reports after any
successful seek exactly the value that seek returned. -/
theorem adapterRewind_streamPosition_spec (a a' : Adapter) (pos : SeekFrom)
    (v : Nat) :
    (a.rewind = (⟨0⟩, .ok ())) ∧
    ((a.rewind.1).rewind = (⟨0⟩, .ok ())) ∧
    (a.stream_position = (a, .ok a.offset)) ∧
    (a.seek pos = (a', .ok v) → a'.stream_position = (a', .ok v)) := by
  refine ⟨rfl, rfl, rfl, ?_⟩
  intro h
  cases pos with
  | start p =>
      simp only [Adapter.seek, Prod.mk.injEq] at h
      obtain ⟨h1, h2⟩ := h
      injection h2 with h2
      subst h1
      subst h2
      rfl
  | current p =>
      simp only [Adapter.seek] at h
      split at h
      · obtain ⟨h1, h2⟩ := Prod.mk.injEq .. |>.mp h
        injection h2 with h2
        subst h1
        subst h2
        rfl
      · exact absurd (Prod.mk.injEq .. |>.mp h).2 (by simp)
  | fromEnd p =>
      simp only [Adapter.seek, Prod.mk.injEq] at h
      exact absurd h.2 (by simp)

/-- Witness for `adapterRewind_streamPosition_spec` at offset `3`,
`seek(Start(5))`. -/
theorem adapterRewind_streamPosition_spec_witness :
    Adapter.rewind ⟨3⟩ = (⟨0⟩, .ok ()) ∧
    Adapter.stream_position ⟨5⟩ = (⟨5⟩, .ok 5) := by
  refine ⟨(adapterRewind_streamPosition_spec ⟨3⟩ ⟨5⟩ (.start 5) 5).1, ?_⟩
  exact (adapterRewind_streamPosition_spec ⟨3⟩ ⟨5⟩ (.start 5) 5).2.2.2 rfl

/-- An empty (or emptied) destination buffer makes the default
`read_exact_at` loop return `Ok(())` whatever the responses. -/
theorem readExactAtDefault_zero (resps : List IOResp) (off : Nat) :
    readExactAtDefault resps 0 off = some (.ok ()) := by
  cases resps with
  | nil => rfl
  | cons r rest =>
      cases r with
      | ok n => cases n <;> rfl
      | error e => rfl

/-- The default `read_exact_at` loop skips any run of `Interrupted` errors. -/
theorem readExactAtDefault_skip_interrupted (resps : List IOResp)
    (errs : List IOError) (rem off : Nat)
    (h : ∀ e ∈ errs, e.kind = .interrupted) :
    readExactAtDefault (errs.map .error ++ resps) rem off =
      readExactAtDefault resps rem off := by
  induction errs with
  | nil => rfl
  | cons e' errs ih =>
      have he := h e' (List.mem_cons_self e' errs)
      have h' : ∀ x ∈ errs, x.kind = .interrupted := fun x hx =>
        h x (List.mem_cons_of_mem _ hx)
      cases rem with
      | zero => rw [readExactAtDefault_zero, readExactAtDefault_zero]
      | succ r =>
          show (if e'.kind = .interrupted
              then readExactAtDefault (errs.map .error ++ resps) (r + 1) off
              else some (.error e')) = _
          rw [if_pos he, ih h']

/-- C4: the default `read_exact_at` loop — an empty buffer returns `Ok(())`;
a `read_at` returning `0` with a non-empty buffer yields the
`UnexpectedEof` error; a positive count advances buffer and offset by that
count; an `Interrupted` error is skipped (indeed any run of them); any other
error returns immediately. -/
theorem readExactAtDefault_spec (resps : List IOResp) (rem off n : Nat)
    (e : IOError) :
    (readExactAtDefault resps 0 off = some (.ok ())) ∧
    (readExactAtDefault (.ok 0 :: resps) (rem + 1) off =
        some (.error fill_buffer_error) ∧
      fill_buffer_error.kind = .unexpectedEof) ∧
    (n + 1 ≤ rem + 1 →
      readExactAtDefault (.ok (n + 1) :: resps) (rem + 1) off =
        readExactAtDefault resps (rem - n) (off + (n + 1))) ∧
    (e.kind = .interrupted →
      readExactAtDefault (.error e :: resps) (rem + 1) off =
        readExactAtDefault resps (rem + 1) off) ∧
    (e.kind ≠ .interrupted →
      readExactAtDefault (.error e :: resps) (rem + 1) off = some (.error e)) ∧
    (∀ errs : List IOError, (∀ e' ∈ errs, e'.kind = .interrupted) →
      readExactAtDefault (errs.map .error ++ resps) rem off =
        readExactAtDefault resps rem off) := by
  refine ⟨readExactAtDefault_zero resps off, ⟨rfl, rfl⟩, ?_, ?_, ?_,
    fun errs h => readExactAtDefault_skip_interrupted resps errs rem off h⟩
  · intro h
    show (if n + 1 ≤ rem + 1
        then readExactAtDefault resps (rem - n) (off + (n + 1))
        else none) = _
    rw [if_pos h]
  · intro h
    show (if e.kind = .interrupted
        then readExactAtDefault resps (rem + 1) off
        else some (.error e)) = _
    rw [if_pos h]
  · intro h
    show (if e.kind = .interrupted
        then readExactAtDefault resps (rem + 1) off
        else some (.error e)) = _
    rw [if_neg h]

/-- Witness for `readExactAtDefault_spec`: a 2-byte buffer filled by one
`Ok(2)`; an interrupted call retried then filled; an `Other` error
propagated; `Ok(0)` on a non-empty buffer reported as unexpected EOF. -/
theorem readExactAtDefault_spec_witness :
    readExactAtDefault [.ok 2] 2 5 = some (.ok ()) ∧
    readExactAtDefault [.error ⟨.interrupted, "i"⟩, .ok 1] 1 0 = some (.ok ()) ∧
    readExactAtDefault [.error ⟨.other 7, "boom"⟩] 1 0 =
      some (.error ⟨.other 7, "boom"⟩) ∧
    readExactAtDefault [.ok 0] 1 0 = some (.error fill_buffer_error) := by
  refine ⟨?_, ?_, ?_, ?_⟩
  · have s := (readExactAtDefault_spec [] 1 5 1 ⟨.other 0, ""⟩).2.2.1 (by decide)
    exact s.trans ((readExactAtDefault_spec [] 0 7 0 ⟨.other 0, ""⟩).1)
  · have s1 := (readExactAtDefault_spec [.ok 1] 0 0 0
      ⟨.interrupted, "i"⟩).2.2.2.1 rfl
    have s2 := (readExactAtDefault_spec [] 0 0 0 ⟨.other 0, ""⟩).2.2.1 (by decide)
    exact s1.trans (s2.trans ((readExactAtDefault_spec [] 0 1 0 ⟨.other 0, ""⟩).1))
  · exact (readExactAtDefault_spec [] 0 0 0 ⟨.other 7, "boom"⟩).2.2.2.2.1 (by decide)
  · exact ((readExactAtDefault_spec [] 0 0 0 ⟨.other 0, ""⟩).2.1).1

/-- An empty (or exhausted) source buffer makes the default `write_all_at`
loop return `Ok(())` whatever the responses. -/
theorem writeAllAtDefault_zero (resps : List IOResp) (off : Nat) :
    writeAllAtDefault resps 0 off = some (.ok ()) := by
  cases resps with
  | nil => rfl
  | cons r rest =>
      cases r with
      | ok n => cases n <;> rfl
      | error e => rfl

/-- The default `write_all_at` loop skips any run of `Interrupted` errors. -/
theorem writeAllAtDefault_skip_interrupted (resps : List IOResp)
    (errs : List IOError) (rem off : Nat)
    (h : ∀ e ∈ errs, e.kind = .interrupted) :
    writeAllAtDefault (errs.map .error ++ resps) rem off =
      writeAllAtDefault resps rem off := by
  induction errs with
  | nil => rfl
  | cons e' errs ih =>
      have he := h e' (List.mem_cons_self e' errs)
      have h' : ∀ x ∈ errs, x.kind = .interrupted := fun x hx =>
        h x (List.mem_cons_of_mem _ hx)
      cases rem with
      | zero => rw [writeAllAtDefault_zero, writeAllAtDefault_zero]
      | succ r =>
          show (if e'.kind = .interrupted
              then writeAllAtDefault (errs.map .error ++ resps) (r + 1) off
              else some (.error e')) = _
          rw [if_pos he, ih h']

/-- C5: the default `write_all_at` loop — a whole written buffer returns
`Ok(())`; a `write_at` returning `Ok(0)` with a non-empty remainder fails
with the `WriteZero` error; a positive count advances buffer and offset by
that count; `Interrupted` errors are retried transparently (any run of them
is skipped); any other error is propagated immediately. -/
theorem writeAllAtDefault_spec (resps : List IOResp) (rem off n : Nat)
    (e : IOError) :
    (writeAllAtDefault resps 0 off = some (.ok ())) ∧
    (writeAllAtDefault (.ok 0 :: resps) (rem + 1) off =
        some (.error write_buffer_error) ∧
      write_buffer_error.kind = .writeZero) ∧
    (n + 1 ≤ rem + 1 →
      writeAllAtDefault (.ok (n + 1) :: resps) (rem + 1) off =
        writeAllAtDefault resps (rem - n) (off + (n + 1))) ∧
    (e.kind = .interrupted →
      writeAllAtDefault (.error e :: resps) (rem + 1) off =
        writeAllAtDefault resps (rem + 1) off) ∧
    (e.kind ≠ .interrupted →
      writeAllAtDefault (.error e :: resps) (rem + 1) off = some (.error e)) ∧
    (∀ errs : List IOError, (∀ e' ∈ errs, e'.kind = .interrupted) →
      writeAllAtDefault (errs.map .error ++ resps) rem off =
        writeAllAtDefault resps rem off) := by
  refine ⟨writeAllAtDefault_zero resps off, ⟨rfl, rfl⟩, ?_, ?_, ?_,
    fun errs h => writeAllAtDefault_skip_interrupted resps errs rem off h⟩
  · intro h
    show (if n + 1 ≤ rem + 1
        then writeAllAtDefault resps (rem - n) (off + (n + 1))
        else none) = _
    rw [if_pos h]
  · intro h
    show (if e.kind = .interrupted
        then writeAllAtDefault resps (rem + 1) off
        else some (.error e)) = _
    rw [if_pos h]
  · intro h
    show (if e.kind = .interrupted
        then writeAllAtDefault resps (rem + 1) off
        else some (.error e)) = _
    rw [if_neg h]

/-- Witness for `writeAllAtDefault_spec`: a 3-byte buffer written in two
steps; `Ok(0)` reported as the write-zero error; an interrupted call
retried; an `Other` error propagated. -/
theorem writeAllAtDefault_spec_witness :
    writeAllAtDefault [.ok 2, .ok 1] 3 0 = some (.ok ()) ∧
    writeAllAtDefault [.ok 0] 2 0 = some (.error write_buffer_error) ∧
    writeAllAtDefault [.error ⟨.interrupted, "i"⟩, .ok 1] 1 4 = some (.ok ()) ∧
    writeAllAtDefault [.error ⟨.other 3, "disk"⟩] 1 0 =
      some (.error ⟨.other 3, "disk"⟩) := by
  refine ⟨?_, ?_, ?_, ?_⟩
  · have s1 := (writeAllAtDefault_spec [.ok 1] 2 0 1 ⟨.other 0, ""⟩).2.2.1
      (by decide)
    have s2 := (writeAllAtDefault_spec [] 0 2 0 ⟨.other 0, ""⟩).2.2.1 (by decide)
    exact s1.trans (s2.trans ((writeAllAtDefault_spec [] 0 3 0 ⟨.other 0, ""⟩).1))
  · exact ((writeAllAtDefault_spec [] 1 0 0 ⟨.other 0, ""⟩).2.1).1
  · have s1 := (writeAllAtDefault_spec [.ok 1] 0 4 0
      ⟨.interrupted, "i"⟩).2.2.2.1 rfl
    have s2 := (writeAllAtDefault_spec [] 0 4 0 ⟨.other 0, ""⟩).2.2.1 (by decide)
    exact s1.trans (s2.trans ((writeAllAtDefault_spec [] 0 5 0 ⟨.other 0, ""⟩).1))
  · exact (writeAllAtDefault_spec [] 0 0 0 ⟨.other 3, "disk"⟩).2.2.2.2.1
      (by decide)

/-- A member of a list of buffers is no longer than their concatenation. -/
theorem length_le_length_flatten (b : List Nat) (bufs : List (List Nat))
    (hb : b ∈ bufs) : b.length ≤ bufs.flatten.length := by
  induction bufs with
  | nil => cases hb
  | cons x xs ih =>
      rcases List.mem_cons.mp hb with h1 | h2
      · subst h1
        simp
      · have := ih h2
        simp only [List.flatten_cons, List.length_append]
        omega

/-- The buffer chosen by the default `read_vectored_at` is no longer than the
concatenation of all the buffers. -/
theorem firstNonEmpty_length_le (bufs : List (List Nat)) :
    (firstNonEmpty bufs).length ≤ bufs.flatten.length := by
  unfold firstNonEmpty
  cases hf : bufs.find? (fun b => !b.isEmpty) with
  | none => simp
  | some b =>
      simpa using length_le_length_flatten b bufs (List.mem_of_find?_eq_some hf)

/-- C6: the default `read_vectored_at` (at the slice backend) is a single
`read_at` into the first non-empty buffer, and that is a correct short read
of the concatenation: the count is the concatenation count truncated to the
chosen buffer's length, and the bytes delivered agree with the bytes a
`read_at` against the concatenation delivers, up to that count. -/
theorem sliceReadVectoredAt_spec (B : List Nat) (bufs : List (List Nat))
    (o : Nat) :
    ∃ n bv m c,
      sliceReadVectoredAt B bufs o = .ok (n, bv) ∧
      sliceReadAt B bufs.flatten o = .ok (m, c) ∧
      sliceReadVectoredAt B bufs o = sliceReadAt B (firstNonEmpty bufs) o ∧
      n = min (firstNonEmpty bufs).length m ∧
      bv.take n = c.take n := by
  by_cases ho : o ≤ B.length
  · refine ⟨min (B.length - o) (firstNonEmpty bufs).length,
      (B.drop o).take (min (B.length - o) (firstNonEmpty bufs).length) ++
        (firstNonEmpty bufs).drop
          (min (B.length - o) (firstNonEmpty bufs).length),
      min (B.length - o) bufs.flatten.length,
      (B.drop o).take (min (B.length - o) bufs.flatten.length) ++
        bufs.flatten.drop (min (B.length - o) bufs.flatten.length),
      ?_, ?_, rfl, ?_, ?_⟩
    · simp [sliceReadVectoredAt, sliceReadAt, ho]
    · simp [sliceReadAt, ho]
    · have hle := firstNonEmpty_length_le bufs
      omega
    · have hle := firstNonEmpty_length_le bufs
      have h1 : min (B.length - o) (firstNonEmpty bufs).length ≤
          ((B.drop o).take
            (min (B.length - o) (firstNonEmpty bufs).length)).length := by
        simp only [List.length_take, List.length_drop]
        omega
      have h2 : min (B.length - o) (firstNonEmpty bufs).length ≤
          ((B.drop o).take (min (B.length - o) bufs.flatten.length)).length := by
        simp only [List.length_take, List.length_drop]
        omega
      rw [List.take_append_of_le_length h1, List.take_append_of_le_length h2,
        List.take_take, List.take_take]
      congr 1
      omega
  · refine ⟨0, firstNonEmpty bufs, 0, bufs.flatten, ?_, ?_, rfl, ?_, ?_⟩
    · simp [sliceReadVectoredAt, sliceReadAt, ho]
    · simp [sliceReadAt, ho]
    · simp
    · simp

/-- C7: `Adapter` sequential operations — `read`/`write` perform the
positional call at the stored offset and advance it by the transferred
count on success; `read_exact`/`write_all` advance it by the whole buffer
length exactly on success; every error leaves the stored offset unchanged. -/
theorem adapterSequential_spec (a : Adapter) (ra wa : Nat → Nat → IOResp)
    (rea waa : Nat → Nat → Except IOError Unit) (len n : Nat) (e : IOError) :
    (ra len a.offset = .ok n → a.read ra len = (⟨a.offset + n⟩, .ok n)) ∧
    (ra len a.offset = .error e → a.read ra len = (a, .error e)) ∧
    (rea len a.offset = .ok () →
      a.read_exact rea len = (⟨a.offset + len⟩, .ok ())) ∧
    (rea len a.offset = .error e → a.read_exact rea len = (a, .error e)) ∧
    (wa len a.offset = .ok n → a.write wa len = (⟨a.offset + n⟩, .ok n)) ∧
    (wa len a.offset = .error e → a.write wa len = (a, .error e)) ∧
    (waa len a.offset = .ok () →
      a.write_all waa len = (⟨a.offset + len⟩, .ok ())) ∧
    (waa len a.offset = .error e → a.write_all waa len = (a, .error e)) := by
  refine ⟨?_, ?_, ?_, ?_, ?_, ?_, ?_, ?_⟩ <;> intro h <;>
    simp [Adapter.read, Adapter.read_exact, Adapter.write, Adapter.write_all, h]

/-- Witness for `adapterSequential_spec` at offset `4`, buffer length `5`,
with constant oracles: a 3-byte read advances to `7`, a failed read stays at
`4`, a full `read_exact` advances to `9`, a 2-byte write advances to `6`, a
failed `write_all` stays at `4`. -/
theorem adapterSequential_spec_witness :
    Adapter.read ⟨4⟩ (fun _ _ => .ok 3) 5 = (⟨7⟩, .ok 3) ∧
    Adapter.read ⟨4⟩ (fun _ _ => .error ⟨.other 1, "e"⟩) 5 =
      (⟨4⟩, .error ⟨.other 1, "e"⟩) ∧
    Adapter.read_exact ⟨4⟩ (fun _ _ => .ok ()) 5 = (⟨9⟩, .ok ()) ∧
    Adapter.write ⟨4⟩ (fun _ _ => .ok 2) 5 = (⟨6⟩, .ok 2) ∧
    Adapter.write_all ⟨4⟩ (fun _ _ => .error ⟨.other 1, "e"⟩) 5 =
      (⟨4⟩, .error ⟨.other 1, "e"⟩) := by
  refine ⟨?_, ?_, ?_, ?_, ?_⟩
  · exact (adapterSequential_spec ⟨4⟩ (fun _ _ => .ok 3) (fun _ _ => .ok 3)
      (fun _ _ => .ok ()) (fun _ _ => .ok ()) 5 3 ⟨.other 1, "e"⟩).1 rfl
  · exact (adapterSequential_spec ⟨4⟩ (fun _ _ => .error ⟨.other 1, "e"⟩)
      (fun _ _ => .ok 3) (fun _ _ => .ok ()) (fun _ _ => .ok ()) 5 3
      ⟨.other 1, "e"⟩).2.1 rfl
  · exact (adapterSequential_spec ⟨4⟩ (fun _ _ => .ok 3) (fun _ _ => .ok 3)
      (fun _ _ => .ok ()) (fun _ _ => .ok ()) 5 3 ⟨.other 1, "e"⟩).2.2.1 rfl
  · exact (adapterSequential_spec ⟨4⟩ (fun _ _ => .ok 3) (fun _ _ => .ok 2)
      (fun _ _ => .ok ()) (fun _ _ => .ok ()) 5 2 ⟨.other 1, "e"⟩).2.2.2.2.1 rfl
  · exact (adapterSequential_spec ⟨4⟩ (fun _ _ => .ok 3) (fun _ _ => .ok 2)
      (fun _ _ => .ok ())
      (fun _ _ => .error ⟨.other 1, "e"⟩) 5 2 ⟨.other 1, "e"⟩).2.2.2.2.2.2.2 rfl

/-- A step applied to the first clone never touches the second clone's
cursor, and symmetrically. -/
theorem sfStep_frame (w : SFWorld) (op : SFOp) :
    (w.step .fst op).snd = w.snd ∧ (w.step .snd op).fst = w.fst := by
  cases op <;> exact ⟨rfl, rfl⟩

/-- C9: a freshly constructed `SyncFile` has logical offset `0`; a clone
copies the current offset value; and no sequence of sequential reads,
writes, seeks or rewinds on one clone ever changes the other clone's
offset (the cursor field lives outside the shared `Arc`). -/
theorem syncFile_clone_offset_independent (a : Adapter) (w : SFWorld)
    (ops : List SFOp) :
    Adapter.new.offset = 0 ∧
    (cloneSyncFile a).offset = a.offset ∧
    (w.run .fst ops).snd = w.snd ∧
    (w.run .snd ops).fst = w.fst := by
  refine ⟨rfl, rfl, ?_, ?_⟩
  · induction ops generalizing w with
    | nil => rfl
    | cons op ops ih =>
        show ((w.step .fst op).run .fst ops).snd = w.snd
        rw [ih (w.step .fst op), (sfStep_frame w op).1]
  · induction ops generalizing w with
    | nil => rfl
    | cons op ops ih =>
        show ((w.step .snd op).run .snd ops).fst = w.fst
        rw [ih (w.step .snd op), (sfStep_frame w op).2]

end SyncFileSpec
